import Mathlib

/-!
Verification development for the IPOS → WooCommerce stock-sync service.

The definitions below are a shallow embedding of the program's core modules:

* `src/localApi.js`   — local IPOS backend adapter (`getStockByBarcode`,
  `parseStockData`, `extractStockQuantity`);
* `src/woocommerce.js` — remote catalog adapter (`getAllProducts`,
  `updateProductStock`, `batchUpdateStock`);
* `src/syncService.js` — the reconciler (`performSync`, `processBatch`,
  `getLocalStock`).

Network interactions are represented by explicit oracles: the sequence of page
responses for the paginated catalog fetch, the transport result of each local
lookup, and a success predicate for each remote write.  JavaScript numbers that
can carry fractional values are modelled as rationals; integer quantities as
naturals or integers as the source warrants.
-/

/-- JSON-like value stored in a field of a local-backend record.  `num` holds a
finite JavaScript number (NaN/Infinity field values are not modelled), `str` a
string, `null` the JSON null, and `other` any other value (boolean, nested
object, ...) which `extractStockQuantity` skips over. -/
inductive JsonVal where
  | num (q : ℚ)
  | str (s : String)
  | null
  | other
deriving DecidableEq

/-- A local-backend record: a JavaScript object, modelled as its field / value
association list (first binding wins, as JS object keys are unique). -/
abbrev JRecord : Type := List (String × JsonVal)

/-- Digit list to natural number, most significant first. -/
def digitsToNat (cs : List Char) : Nat :=
  cs.foldl (fun n c => n * 10 + (c.toNat - Char.toNat '0')) 0

/-- Model of JavaScript `parseFloat` on decimal strings: skip leading
whitespace, optional sign, longest prefix of digits with at most one decimal
point; `none` plays the role of NaN.  Exponent notation and the literal
`Infinity` are not modelled (no claim depends on them). -/
def parseFloatQ (s : String) : Option ℚ :=
  let cs := s.toList.dropWhile Char.isWhitespace
  let signed : Int × List Char :=
    match cs with
    | '-' :: rest => (-1, rest)
    | '+' :: rest => (1, rest)
    | _ => (1, cs)
  let intDigits := signed.2.takeWhile Char.isDigit
  let rest2 := signed.2.dropWhile Char.isDigit
  let fracDigits :=
    match rest2 with
    | '.' :: r => r.takeWhile Char.isDigit
    | _ => []
  if intDigits.isEmpty && fracDigits.isEmpty then none
  else
    let den := 10 ^ fracDigits.length
    some (mkRat
      (signed.1 * ((digitsToNat intDigits * den + digitsToNat fracDigits : Nat) : Int))
      den)

/-- Ordered candidate field names probed by `extractStockQuantity`
(`localApi.js` lines 130–142, verbatim order). -/
def possibleFields : List String :=
  ["stock", "stok", "stock_quantity", "stockQuantity", "quantity", "qty",
   "available_stock", "availableStock", "inventory", "stock_count",
   "stockCount"]

/-- Loop body of `extractStockQuantity` (`localApi.js` lines 144–163): probe
the fields in order; a present, non-null field holding a number, or a string
that `parseFloat` accepts, with value `≥ 0`, ends the probe with the floored
value; anything else moves on to the next field. -/
def extractGo (r : JRecord) : List String → Option Nat
  | [] => none
  | f :: fs =>
    match List.lookup f r with
    | some (JsonVal.num q) =>
        if 0 ≤ q then some (Rat.floor q).toNat else extractGo r fs
    | some (JsonVal.str s) =>
        match parseFloatQ s with
        | some q => if 0 ≤ q then some (Rat.floor q).toNat else extractGo r fs
        | none => extractGo r fs
    | some JsonVal.null => extractGo r fs
    | some JsonVal.other => extractGo r fs
    | none => extractGo r fs

/-- `extractStockQuantity` of `localApi.js` (lines 128–167). -/
def extractStockQuantity (r : JRecord) : Option Nat :=
  extractGo r possibleFields

/-- Reference formulation of a single field probe, written from the spec's
words (§4.2 step 3): the quantity a given field yields, if any — numeric or
numeric-string values floored to an integer, negative or non-numeric values
yielding nothing. -/
def fieldQuantitySpec (r : JRecord) (f : String) : Option Nat :=
  match List.lookup f r with
  | some (JsonVal.num q) => if 0 ≤ q then some (Rat.floor q).toNat else none
  | some (JsonVal.str s) =>
      (parseFloatQ s).bind fun q =>
        if 0 ≤ q then some (Rat.floor q).toNat else none
  | _ => none

/-- Element of an array response from the local backend: either a record
(JavaScript object — a nested array also passes the source's
`typeof item === 'object'` test but then has none of the probed fields, so it
is a record with no matching field) or a non-object value. -/
inductive ArrElem where
  | record (r : JRecord)
  | nonObject
deriving DecidableEq

/-- Shape of a local-backend response body. -/
inductive RespData where
  | arr (elems : List ArrElem)
  | obj (r : JRecord)
  | prim
deriving DecidableEq

/-- Parsed stock record built by `parseStockData` (the `lastUpdated` and
`rawData` debug fields are not modelled). -/
structure StockData where
  barcode : String
  stockQuantity : Nat
  available : Bool
deriving DecidableEq

/-- Quantity a single array element yields, if any (`localApi.js` lines
75–83): only object elements are probed. -/
def elemStock : ArrElem → Option Nat
  | ArrElem.record r => extractStockQuantity r
  | ArrElem.nonObject => none

/-- `parseStockData` of `localApi.js` (lines 66–121): an array response sums
the quantities of the elements that yield one; an object response extracts
directly; anything else is unusable.  `available` mirrors the source's
`hasValidData && totalStock >= 0` (trivially true for natural totals, kept
verbatim). -/
def parseStockData (data : RespData) (barcode : String) : Option StockData :=
  match data with
  | RespData.arr elems =>
    let st := elems.foldl
      (fun acc e =>
        match elemStock e with
        | some v => (acc.1 + v, true)
        | none => acc)
      ((0 : Nat), false)
    if st.2 then some ⟨barcode, st.1, st.2 && decide (0 ≤ st.1)⟩ else none
  | RespData.obj r =>
    match extractStockQuantity r with
    | some v => some ⟨barcode, v, true && decide (0 ≤ v)⟩
    | none => none
  | RespData.prim => none

/-- `getStockByBarcode` of `localApi.js` (lines 27–58), as a function of the
transport result of its single HTTP request: a 2xx response with a body is
parsed; a 2xx response with a falsy body yields `none`; any transport failure
(network error, timeout, non-2xx — all rejections of the axios promise) is
caught by the source's own `catch` block, logged, and yields `none`. -/
def getStockByBarcode (barcode : String)
    (resp : Except String (Option RespData)) : Option StockData :=
  match resp with
  | Except.ok (some d) => parseStockData d barcode
  | Except.ok none => none
  | Except.error _ => none

/-- Retry loop of `getLocalStock` (`syncService.js` lines 228–257), with the
per-attempt call results supplied as a list.  Returns the resolved quantity,
the number of calls performed, and the list of delays (in ms) awaited between
attempts.  An `Except.error` call result models the awaited call rejecting,
which triggers the source's `catch` branch: increment the retry counter and,
if attempts remain, wait `retryDelayMs * retries` and loop. -/
def lookupGo (maxRetries retryDelayMs : Nat) (retries : Nat) :
    List (Except String (Option StockData)) → Option Nat × Nat × List Nat
  | [] => (none, 0, [])
  | c :: rest =>
    if maxRetries ≤ retries then (none, 0, [])
    else
      match c with
      | Except.ok sd =>
        match sd with
        | some s => if s.available then (some s.stockQuantity, 1, []) else (none, 1, [])
        | none => (none, 1, [])
      | Except.error _ =>
        let r' := retries + 1
        if r' < maxRetries then
          let res := lookupGo maxRetries retryDelayMs r' rest
          (res.1, res.2.1 + 1, retryDelayMs * r' :: res.2.2)
        else (none, 1, [])

/-- `getLocalStock` of `syncService.js` (lines 228–257) composed with the real
call it awaits: `localApi.getStockByBarcode` is a total function (its own
`catch` turns every transport failure into `null`), so every call result the
retry loop sees is a normal return — `Except.ok` — never a rejection. -/
def getLocalStock (maxRetries retryDelayMs : Nat) (sku : String)
    (responses : List (Except String (Option RespData))) :
    Option Nat × Nat × List Nat :=
  lookupGo maxRetries retryDelayMs 0
    (responses.map fun r => Except.ok (getStockByBarcode sku r))

/-- Raw WooCommerce product as it appears in a catalog page response.  `sku`
and `stock_quantity` are nullable in the WooCommerce payload. -/
structure RawProduct where
  id : Nat
  name : String
  sku : Option String
  stock_quantity : Option Int
  manage_stock : Bool
  stock_status : String
  type : String
deriving DecidableEq

/-- Product record returned by `getAllProducts` (`woocommerce.js` lines
59–67): the projection applied to every kept raw product, with the source's
`product.stock_quantity || 0` defaulting. -/
structure CatalogProduct where
  id : Nat
  name : String
  sku : String
  stock_quantity : Int
  manage_stock : Bool
  stock_status : String
  type : String
deriving DecidableEq

/-- The per-product projection of `getAllProducts` (`woocommerce.js` lines
59–67). -/
def toCatalogProduct (p : RawProduct) : CatalogProduct :=
  { id := p.id
    name := p.name
    sku := p.sku.getD ""
    stock_quantity := p.stock_quantity.getD 0
    manage_stock := p.manage_stock
    stock_status := p.stock_status
    type := p.type }

/-- The SKU filter of `getAllProducts` (`woocommerce.js` lines 42–44):
`product.sku && product.sku.trim() !== ''`. -/
def hasValidSku (p : RawProduct) : Bool :=
  match p.sku with
  | some s => s ≠ "" && s.trim ≠ ""
  | none => false

/-- Pagination loop of `getAllProducts` (`woocommerce.js` lines 25–56), as a
function of the successive page responses (element `k` is the transport result
of the request for page `k+1`; an exhausted oracle stands for the next page
coming back empty).  Returns the accumulated SKU-filtered raw products — or
the first page error, which the source rethrows, aborting the whole fetch —
together with the number of page requests issued. -/
def getAllProductsGo (perPage : Nat) :
    List (Except String (List RawProduct)) →
      Except String (List RawProduct) × Nat
  | [] => (Except.ok [], 0)
  | r :: rest =>
    match r with
    | Except.error e => (Except.error e, 1)
    | Except.ok data =>
      if data.length = 0 then (Except.ok [], 1)
      else
        let kept := data.filter hasValidSku
        if data.length < perPage then (Except.ok kept, 1)
        else
          match getAllProductsGo perPage rest with
          | (Except.error e, n) => (Except.error e, n + 1)
          | (Except.ok more, n) => (Except.ok (kept ++ more), n + 1)

/-- `getAllProducts` of `woocommerce.js` (lines 21–73): the pagination loop
followed by the per-product projection. -/
def getAllProducts (perPage : Nat)
    (responses : List (Except String (List RawProduct))) :
    Except String (List CatalogProduct) × Nat :=
  match getAllProductsGo perPage responses with
  | (Except.error e, n) => (Except.error e, n)
  | (Except.ok raws, n) => (Except.ok (raws.map toCatalogProduct), n)

/-- Reference predicate, from the spec's words: a page response at which
pagination stops — a failed request, an empty page, or a short (`< perPage`)
page. -/
def pageTerminates (perPage : Nat) : Except String (List RawProduct) → Bool
  | Except.error _ => true
  | Except.ok d => d.isEmpty || d.length < perPage

/-- Reference count, from the spec's words: pages are requested up to and
including the first terminating page (all of them if none terminates). -/
def consumedCount (perPage : Nat) : List (Except String (List RawProduct)) → Nat
  | [] => 0
  | r :: rest =>
    if pageTerminates perPage r then 1 else consumedCount perPage rest + 1

/-- First failed request among a list of page responses, if any. -/
def firstPageError (l : List (Except String (List RawProduct))) : Option String :=
  l.findSome? fun r =>
    match r with
    | Except.error e => some e
    | Except.ok _ => none

/-- Items a page response contributes: the page's products with the invalid
SKUs filtered out (a failed page contributes nothing). -/
def keptItems : Except String (List RawProduct) → List RawProduct
  | Except.ok d => d.filter hasValidSku
  | Except.error _ => []

/-- Reference fetch result, from the spec's words: if any consumed page
request failed the whole fetch fails with that error; otherwise the result is
the concatenation, in page order, of the consumed pages with items lacking a
non-empty (after trimming) SKU filtered out. -/
def catalogFetchSpec (perPage : Nat)
    (responses : List (Except String (List RawProduct))) :
    Except String (List RawProduct) :=
  let consumed := responses.take (consumedCount perPage responses)
  match firstPageError consumed with
  | some e => Except.error e
  | none => Except.ok ((consumed.map keptItems).flatten)

/-- Pending stock update pushed by `processBatch` (`syncService.js` lines
201–207), field for field. -/
structure StockUpdate where
  productId : Nat
  sku : String
  stockQuantity : Nat
  currentStock : Int
  productName : String
deriving DecidableEq

/-- Per-product body of the `processBatch` loop (`syncService.js` lines
190–217): compare the resolved local stock — `null` meaning not found — with
the product's current stock and emit an update exactly when they differ.  The
source's `product.stock_quantity || 0` is the identity here because
`getAllProducts` already applied that defaulting. -/
def processItem (localStock : String → Option Nat) (p : CatalogProduct) :
    Option StockUpdate :=
  match localStock p.sku with
  | some q =>
    if (q : Int) ≠ p.stock_quantity then
      some ⟨p.id, p.sku, q, p.stock_quantity, p.name⟩
    else none
  | none => none

/-- `processBatch` of `syncService.js` (lines 187–221): the loop over the
batch accumulating the emitted updates in order.  A per-product failure is
absorbed by the loop's `try`/`catch`; the resolved lookup being a total
function, that branch is unreachable. -/
def processBatch (localStock : String → Option Nat) :
    List CatalogProduct → List StockUpdate
  | [] => []
  | p :: ps =>
    match processItem localStock p with
    | some u => u :: processBatch localStock ps
    | none => processBatch localStock ps

/-- Recursion workhorse of `chunkList`, structurally recursive on a fuel
bounded below by the list length (so that the equations reduce
definitionally). -/
def chunkGo (bs : Nat) : Nat → List α → List (List α)
  | _, [] => []
  | 0, _ :: _ => []
  | fuel + 1, x :: xs =>
    (x :: xs.take (bs - 1)) :: chunkGo bs fuel (xs.drop (bs - 1))

/-- Batch partition of `performSync` (`syncService.js` lines 136–147):
`products.slice(i, i + batchSize)` for `i = 0, batchSize, 2·batchSize, ...`. -/
def chunkList (bs : Nat) (l : List α) : List (List α) :=
  chunkGo bs l.length l

/-- The batched processing phase of `performSync` (`syncService.js` lines
133–147): process the batches sequentially, concatenating their updates. -/
def processAll (bs : Nat) (localStock : String → Option Nat)
    (products : List CatalogProduct) : List StockUpdate :=
  (chunkList bs products).foldl (fun acc b => acc ++ processBatch localStock b) []

/-- The literal request body of `updateProductStock` (`woocommerce.js` lines
85–89).  The structure has exactly the three fields of the source literal: no
other product field is part of the write. -/
structure UpdateBody where
  stock_quantity : Nat
  manage_stock : Bool
  stock_status : String
deriving DecidableEq

/-- `updateData` built by `updateProductStock` (`woocommerce.js` lines
85–89). -/
def updateBodyFor (stockQuantity : Nat) : UpdateBody :=
  { stock_quantity := stockQuantity
    manage_stock := true
    stock_status := if stockQuantity > 0 then "instock" else "outofstock" }

/-- Effect of the `PUT products/{id}` issued by `updateProductStock` on the
remote product: a WooCommerce partial update overwrites exactly the fields
present in the body and leaves every other field as it was. -/
def applyBody (p : CatalogProduct) (b : UpdateBody) : CatalogProduct :=
  { p with
    stock_quantity := (b.stock_quantity : Int)
    manage_stock := b.manage_stock
    stock_status := b.stock_status }

/-- `batchUpdateStock` of `woocommerce.js` (lines 117–161), as a function of a
per-write success oracle (product id and quantity to written-successfully):
count of successful and of failed writes.  A write that throws and a write
that returns `false` are both counted as failed, as in the source. -/
def batchUpdateStock (writeOk : Nat → Nat → Bool)
    (updates : List StockUpdate) : Nat × Nat :=
  updates.foldl
    (fun acc u =>
      if writeOk u.productId u.stockQuantity then (acc.1 + 1, acc.2)
      else (acc.1, acc.2 + 1))
    ((0 : Nat), (0 : Nat))

/-- Remote-catalog state after `batchUpdateStock` applies a list of updates in
order and every write succeeds: each `PUT products/{id}` rewrites the products
bearing that id with the body `updateBodyFor`. -/
def applyAllUpdates (catalog : List CatalogProduct)
    (updates : List StockUpdate) : List CatalogProduct :=
  updates.foldl
    (fun cat u =>
      cat.map fun p =>
        if p.id = u.productId then applyBody p (updateBodyFor u.stockQuantity)
        else p)
    catalog

/-- The `syncStats` counters of `StockSyncService` (`syncService.js` lines
13–18). -/
structure SyncStats where
  totalSyncs : Nat
  totalProducts : Nat
  totalUpdates : Nat
  totalErrors : Nat
deriving DecidableEq

/-- The mutable service state `performSync` touches: the reentrancy flag and
the statistics (`lastSyncTime` is wall-clock only and not modelled). -/
structure SyncState where
  isRunning : Bool
  stats : SyncStats
deriving DecidableEq

/-- Environment of one `performSync` invocation: the result of the catalog
fetch, the resolved local stock per SKU (`getLocalStock` is a total function
returning a quantity or `null`), and the per-write success oracle. -/
structure SyncEnv where
  catalog : Except String (List CatalogProduct)
  localStock : String → Option Nat
  writeOk : Nat → Nat → Bool

/-- Observable outcome of one `performSync` invocation. -/
inductive SyncOutcome where
  | skipped
  | failed (e : String)
  | empty
  | completed (itemsChecked emitted applied failedWrites : Nat)
deriving DecidableEq

/-- `performSync` of `syncService.js` (lines 110–180).  The result type is
`Except`: an `Except.error` value would model the invocation throwing past its
own boundary.  The source's single `try`/`catch` catches every failure —
including a catalog-fetch failure, which it logs and counts in `totalErrors`
without rethrowing — and the `finally` clears the running flag, so every
branch below returns `Except.ok`.  The early `return` on an empty catalog
skips the statistics update. -/
def performSync (bs : Nat) (env : SyncEnv) (s : SyncState) :
    Except String (SyncState × SyncOutcome) :=
  if s.isRunning then Except.ok (s, SyncOutcome.skipped)
  else
    match env.catalog with
    | Except.error e =>
      Except.ok
        ({ isRunning := false
           stats := { s.stats with totalErrors := s.stats.totalErrors + 1 } },
         SyncOutcome.failed e)
    | Except.ok products =>
      if products.length = 0 then
        Except.ok ({ s with isRunning := false }, SyncOutcome.empty)
      else
        let updates := processAll bs env.localStock products
        let res := batchUpdateStock env.writeOk updates
        Except.ok
          ({ isRunning := false
             stats :=
               { totalSyncs := s.stats.totalSyncs + 1
                 totalProducts := s.stats.totalProducts + products.length
                 totalUpdates := s.stats.totalUpdates + res.1
                 totalErrors := s.stats.totalErrors + res.2 } },
           SyncOutcome.completed products.length updates.length res.1 res.2)

/-- Fold step used by `applyAllUpdates`, applied to a single product: the
effect on one product of the whole update sequence. -/
def applyItem (updates : List StockUpdate) (p : CatalogProduct) :
    CatalogProduct :=
  updates.foldl
    (fun c u =>
      if c.id = u.productId then applyBody c (updateBodyFor u.stockQuantity)
      else c)
    p

/-! ### Helper lemmas -/

theorem extractGo_eq_findSome (r : JRecord) :
    ∀ fs : List String, extractGo r fs = fs.findSome? (fieldQuantitySpec r) := by
  intro fs
  induction fs with
  | nil => rfl
  | cons f fs ih =>
    simp only [extractGo, List.findSome?]
    cases h : List.lookup f r with
    | none => simp [fieldQuantitySpec, h, ih]
    | some v =>
      cases v with
      | num q =>
        by_cases hq : 0 ≤ q <;> simp [fieldQuantitySpec, h, hq, ih]
      | str s =>
        cases hp : parseFloatQ s with
        | none => simp [fieldQuantitySpec, h, hp, ih]
        | some q =>
          by_cases hq : 0 ≤ q <;> simp [fieldQuantitySpec, h, hp, hq, ih]
      | null => simp [fieldQuantitySpec, h, ih]
      | other => simp [fieldQuantitySpec, h, ih]

theorem parseFold_eq (elems : List ArrElem) :
    ∀ (t : Nat) (b : Bool),
      elems.foldl
        (fun acc e =>
          match elemStock e with
          | some v => (acc.1 + v, true)
          | none => acc)
        (t, b)
      = (t + (elems.filterMap elemStock).sum,
         b || !(elems.filterMap elemStock).isEmpty) := by
  induction elems with
  | nil => intro t b; simp
  | cons e es ih =>
    intro t b
    cases h : elemStock e with
    | none => simp [List.foldl_cons, h, ih]
    | some v => simp [List.foldl_cons, h, ih, Nat.add_assoc]

theorem processBatch_eq_filterMap (ls : String → Option Nat) :
    ∀ l : List CatalogProduct, processBatch ls l = l.filterMap (processItem ls) := by
  intro l
  induction l with
  | nil => rfl
  | cons p ps ih =>
    simp only [processBatch]
    cases h : processItem ls p with
    | none => simp [h, ih]
    | some u => simp [h, ih]

theorem processItem_eq_some (ls : String → Option Nat) (p : CatalogProduct)
    (u : StockUpdate) :
    processItem ls p = some u ↔
      ∃ q, ls p.sku = some q ∧ (q : Int) ≠ p.stock_quantity ∧
        u = ⟨p.id, p.sku, q, p.stock_quantity, p.name⟩ := by
  constructor
  · intro h
    cases hq : ls p.sku with
    | none => simp [processItem, hq] at h
    | some q =>
      by_cases hne : (q : Int) ≠ p.stock_quantity
      · have heq : processItem ls p
            = some ⟨p.id, p.sku, q, p.stock_quantity, p.name⟩ := by
          simp [processItem, hq, hne]
        rw [heq] at h
        exact ⟨q, rfl, hne, (Option.some.inj h).symm⟩
      · simp [processItem, hq, hne] at h
  · rintro ⟨q, hq, hne, rfl⟩
    simp [processItem, hq, hne]

theorem chunkGo_flatten (bs : Nat) :
    ∀ (fuel : Nat) (l : List α), l.length ≤ fuel →
      (chunkGo bs fuel l).flatten = l := by
  intro fuel
  induction fuel with
  | zero =>
    intro l h
    cases l with
    | nil => simp [chunkGo]
    | cons x xs => simp at h
  | succ n ih =>
    intro l h
    cases l with
    | nil => simp [chunkGo]
    | cons x xs =>
      rw [chunkGo]
      have hle : (xs.drop (bs - 1)).length ≤ n := by
        simp at h ⊢; omega
      simp only [List.flatten_cons, ih _ hle]
      simp [List.take_append_drop]

theorem chunkList_flatten (bs : Nat) (l : List α) :
    (chunkList bs l).flatten = l :=
  chunkGo_flatten bs l.length l le_rfl

theorem foldl_append_eq_flatten (ls : String → Option Nat) :
    ∀ (L : List (List CatalogProduct)) (acc : List StockUpdate),
      L.foldl (fun a b => a ++ processBatch ls b) acc
        = acc ++ (L.map (processBatch ls)).flatten := by
  intro L
  induction L with
  | nil => intro acc; simp
  | cons b L ih => intro acc; simp [List.foldl_cons, ih]

theorem processBatch_flatten (ls : String → Option Nat) :
    ∀ L : List (List CatalogProduct),
      (L.map (processBatch ls)).flatten = processBatch ls L.flatten := by
  intro L
  induction L with
  | nil => rfl
  | cons b L ih =>
    simp only [List.map_cons, List.flatten_cons, ih,
      processBatch_eq_filterMap]
    rw [List.filterMap_append]

theorem processAll_eq_processBatch (bs : Nat) (ls : String → Option Nat)
    (l : List CatalogProduct) : processAll bs ls l = processBatch ls l := by
  unfold processAll
  rw [foldl_append_eq_flatten, processBatch_flatten, chunkList_flatten]
  simp

theorem applyAllUpdates_eq_map :
    ∀ (us : List StockUpdate) (cat : List CatalogProduct),
      applyAllUpdates cat us = cat.map (applyItem us) := by
  intro us
  induction us with
  | nil =>
    intro cat
    have h : applyItem ([] : List StockUpdate) = id := funext fun p => rfl
    simp [applyAllUpdates, h]
  | cons u us ih =>
    intro cat
    simp only [applyAllUpdates, List.foldl_cons] at *
    rw [ih]
    simp [applyItem, List.map_map, Function.comp]

theorem applyItem_cons (u : StockUpdate) (us : List StockUpdate)
    (p : CatalogProduct) :
    applyItem (u :: us) p
      = applyItem us
          (if p.id = u.productId then applyBody p (updateBodyFor u.stockQuantity)
           else p) := rfl

theorem applyItem_id (us : List StockUpdate) :
    ∀ p : CatalogProduct, (applyItem us p).id = p.id := by
  induction us with
  | nil => intro p; rfl
  | cons u us ih =>
    intro p
    rw [applyItem_cons]
    by_cases h : p.id = u.productId
    · rw [if_pos h, ih]; rfl
    · rw [if_neg h, ih]

theorem applyItem_sku (us : List StockUpdate) :
    ∀ p : CatalogProduct, (applyItem us p).sku = p.sku := by
  induction us with
  | nil => intro p; rfl
  | cons u us ih =>
    intro p
    rw [applyItem_cons]
    by_cases h : p.id = u.productId
    · rw [if_pos h, ih]; rfl
    · rw [if_neg h, ih]

theorem applyItem_of_not_mem (us : List StockUpdate) :
    ∀ p : CatalogProduct, (∀ u ∈ us, u.productId ≠ p.id) →
      applyItem us p = p := by
  induction us with
  | nil => intro p _; rfl
  | cons u us ih =>
    intro p h
    rw [applyItem_cons]
    have hu : u.productId ≠ p.id := h u (by simp)
    rw [if_neg (fun hh => hu hh.symm)]
    exact ih p fun u' hu' => h u' (by simp [hu'])

theorem applyItem_qty (q : Nat) :
    ∀ (us : List StockUpdate) (p : CatalogProduct),
      (∀ u ∈ us, u.productId = p.id → u.stockQuantity = q) →
      (∃ u ∈ us, u.productId = p.id) →
      (applyItem us p).stock_quantity = (q : Int) := by
  intro us
  induction us with
  | nil => rintro p _ ⟨u, hu, _⟩; exact absurd hu (by simp)
  | cons u us ih =>
    intro p hall hex
    rw [applyItem_cons]
    by_cases hid : p.id = u.productId
    · have hq : u.stockQuantity = q := hall u (by simp) hid.symm
      rw [if_pos hid]
      by_cases hex2 : ∃ u' ∈ us, u'.productId = p.id
      · obtain ⟨u', hu', hid'⟩ := hex2
        have hidb : (applyBody p (updateBodyFor u.stockQuantity)).id = p.id := rfl
        refine ih _ ?_ ⟨u', hu', by rw [hidb, hid']⟩
        intro v hv hvid
        exact hall v (by simp [hv]) (by rw [← hidb, hvid])
      · push_neg at hex2
        rw [applyItem_of_not_mem us _ ?_]
        · simp [applyBody, updateBodyFor, hq]
        · intro v hv
          have : (applyBody p (updateBodyFor u.stockQuantity)).id = p.id := rfl
          rw [this]
          exact hex2 v hv
    · rw [if_neg hid]
      obtain ⟨u', hu', hid'⟩ := hex
      rcases List.mem_cons.mp hu' with h | h
      · subst h; exact absurd hid'.symm hid
      · exact ih p (fun v hv => hall v (by simp [hv])) ⟨u', h, hid'⟩

theorem second_pass_empty (ls : String → Option Nat) (l : List CatalogProduct)
    (hnodup : (l.map fun p => p.id).Nodup) :
    processBatch ls (applyAllUpdates l (processBatch ls l)) = [] := by
  rw [applyAllUpdates_eq_map]
  rw [processBatch_eq_filterMap, processBatch_eq_filterMap]
  rw [List.filterMap_eq_nil_iff]
  intro c hc
  obtain ⟨p, hp, rfl⟩ := List.mem_map.mp hc
  have hsku : (applyItem (l.filterMap (processItem ls)) p).sku = p.sku :=
    applyItem_sku _ p
  cases hq : ls p.sku with
  | none => simp [processItem, hsku, hq]
  | some q =>
    have hqty : (applyItem (l.filterMap (processItem ls)) p).stock_quantity
        = (q : Int) := by
      by_cases hdiff : (q : Int) = p.stock_quantity
      · have hnone : ∀ u ∈ l.filterMap (processItem ls), u.productId ≠ p.id := by
          intro u hu hne
          obtain ⟨p', hp', hsome⟩ := List.mem_filterMap.mp hu
          obtain ⟨q', hq', hne', rfl⟩ := (processItem_eq_some ls p' u).mp hsome
          have hpp : p' = p :=
            List.inj_on_of_nodup_map hnodup hp' hp hne
          subst hpp
          rw [hq] at hq'
          exact hne' (by rw [← Option.some.inj hq']; exact hdiff)
        rw [applyItem_of_not_mem _ p hnone]
        exact hdiff.symm
      · apply applyItem_qty
        · intro u hu hid
          obtain ⟨p', hp', hsome⟩ := List.mem_filterMap.mp hu
          obtain ⟨q', hq', _, rfl⟩ := (processItem_eq_some ls p' u).mp hsome
          have hpp : p' = p :=
            List.inj_on_of_nodup_map hnodup hp' hp hid
          subst hpp
          rw [hq] at hq'
          exact (Option.some.inj hq').symm
        · refine ⟨⟨p.id, p.sku, q, p.stock_quantity, p.name⟩, ?_, rfl⟩
          exact List.mem_filterMap.mpr
            ⟨p, hp, (processItem_eq_some ls p _).mpr ⟨q, hq, hdiff, rfl⟩⟩
    simp [processItem, hsku, hq, hqty]

theorem firstPageError_cons_ok (d : List RawProduct)
    (l : List (Except String (List RawProduct))) :
    firstPageError (Except.ok d :: l) = firstPageError l := by
  simp [firstPageError, List.findSome?]

theorem getAllProductsGo_eq_spec (pp : Nat) :
    ∀ rs : List (Except String (List RawProduct)),
      getAllProductsGo pp rs = (catalogFetchSpec pp rs, consumedCount pp rs) := by
  intro rs
  induction rs with
  | nil => rfl
  | cons r rest ih =>
    cases r with
    | error e =>
      simp [getAllProductsGo, catalogFetchSpec, consumedCount, pageTerminates,
        firstPageError, List.findSome?]
    | ok data =>
      by_cases h0 : data.length = 0
      · have hd : data = [] := List.length_eq_zero.mp h0
        subst hd
        simp [getAllProductsGo, catalogFetchSpec, consumedCount, pageTerminates,
          firstPageError, List.findSome?, keptItems]
      · by_cases h1 : data.length < pp
        · have hterm : pageTerminates pp (Except.ok data) = true := by
            simp [pageTerminates, h1]
          simp [getAllProductsGo, catalogFetchSpec, consumedCount, hterm, h0, h1,
            firstPageError, List.findSome?, keptItems]
        · have hne : data ≠ [] := fun hh => h0 (by simp [hh])
          have hterm : pageTerminates pp (Except.ok data) = false := by
            simp [pageTerminates, h1, hne]
          have hcc : consumedCount pp (Except.ok data :: rest)
              = consumedCount pp rest + 1 := by
            simp [consumedCount, hterm]
          have htake : (Except.ok data :: rest).take (consumedCount pp rest + 1)
              = Except.ok data :: rest.take (consumedCount pp rest) :=
            List.take_succ_cons
          have hgo : getAllProductsGo pp (Except.ok data :: rest)
              = match getAllProductsGo pp rest with
                | (Except.error e, n) => (Except.error e, n + 1)
                | (Except.ok more, n) =>
                  (Except.ok (data.filter hasValidSku ++ more), n + 1) := by
            simp [getAllProductsGo, h0, h1]
          rw [hgo, ih]
          cases he : firstPageError (rest.take (consumedCount pp rest)) with
          | some e =>
            have hrest : catalogFetchSpec pp rest = Except.error e := by
              simp [catalogFetchSpec, he]
            rw [hrest]
            simp [catalogFetchSpec, hcc, htake, firstPageError_cons_ok, he]
          | none =>
            have hrest : catalogFetchSpec pp rest
                = Except.ok
                    (((rest.take (consumedCount pp rest)).map keptItems).flatten) := by
              simp [catalogFetchSpec, he]
            rw [hrest]
            simp [catalogFetchSpec, hcc, htake, firstPageError_cons_ok, he,
              keptItems]

/-! ### Claim theorems -/

/-- C5: quantity extraction probes the fixed ordered field list and the first
field holding a usable value wins even if later fields also match (here the
`findSome?` over `possibleFields` in priority order); a numeric string is
parsed as a float and floored (`"5.7"` resolves to `5`); a negative or
non-numeric field value is rejected for that field and probing continues; if
no field yields a usable value the result is `none`. -/
theorem extractStockQuantity_first_match :
    (∀ r : JRecord,
      extractStockQuantity r = possibleFields.findSome? (fieldQuantitySpec r))
    ∧ extractStockQuantity [("stok", JsonVal.str "5.7")] = some 5
    ∧ extractStockQuantity
        [("stok", JsonVal.str "9"), ("stock", JsonVal.num 2)] = some 2
    ∧ extractStockQuantity
        [("stock", JsonVal.num (-3)), ("stok", JsonVal.str "5.7")] = some 5
    ∧ extractStockQuantity [("qty", JsonVal.str "abc")] = none
    ∧ extractStockQuantity [("note", JsonVal.str "7")] = none := by
  refine ⟨fun r => extractGo_eq_findSome r possibleFields, ?_, ?_, ?_, ?_, ?_⟩
    <;> decide

/-- C6: for an array response, the resolved quantity is the sum of the
quantities over exactly those elements that individually yield one; elements
yielding none contribute nothing and do not set `found`; if no element yields
a quantity the result is not-found (`none`). -/
theorem parseStockData_array_sum :
    ∀ (elems : List ArrElem) (bc : String),
      parseStockData (RespData.arr elems) bc =
        (if (elems.filterMap elemStock).isEmpty then none
         else some ⟨bc, (elems.filterMap elemStock).sum, true⟩) := by
  intro elems bc
  rw [parseStockData]
  rw [parseFold_eq]
  cases h : (elems.filterMap elemStock).isEmpty <;> simp [h]

/-- C2: evaluation of the code at the claim's failing input.  With
`maxRetries = 3` and `retryDelayMs = 1000`, a lookup whose every transport
attempt fails with a network error resolves as not-found after exactly one
call, with no retries and no delays: `getStockByBarcode` catches the transport
failure itself and returns `null`, so the retry loop in `getLocalStock` never
sees a rejection.  The claim's retry policy (three attempts, delays 1000 ms
and 2000 ms) never runs. -/
theorem getLocalStock_no_retry_on_transport_failure :
    getLocalStock 3 1000 "C3"
        [Except.error "ETIMEDOUT", Except.error "ETIMEDOUT",
         Except.error "ETIMEDOUT"]
      = (none, 1, []) := rfl

/-- C3: within a batch, an update is emitted for an item exactly when the
local lookup found a quantity and it differs from the remote stock under
exact integer equality; the loop's output is the per-item rule mapped over
the batch; a found quantity of exactly `0` behaves like any other value; a
not-found item is skipped. -/
theorem processBatch_emits_iff :
    (∀ (ls : String → Option Nat) (l : List CatalogProduct),
      processBatch ls l = l.filterMap (processItem ls))
    ∧ (∀ (ls : String → Option Nat) (p : CatalogProduct),
        (processItem ls p).isSome ↔
          ∃ q, ls p.sku = some q ∧ (q : Int) ≠ p.stock_quantity)
    ∧ (∀ (ls : String → Option Nat) (p : CatalogProduct) (q : Nat),
        ls p.sku = some q → (q : Int) ≠ p.stock_quantity →
          processItem ls p = some ⟨p.id, p.sku, q, p.stock_quantity, p.name⟩)
    ∧ (∀ (ls : String → Option Nat) (p : CatalogProduct),
        ls p.sku = none → processItem ls p = none)
    ∧ processItem (fun _ => some 0)
        ⟨7, "Widget", "B2", 5, true, "instock", "simple"⟩
      = some ⟨7, "B2", 0, 5, "Widget"⟩
    ∧ processItem (fun _ => none)
        ⟨7, "Widget", "B2", 5, true, "instock", "simple"⟩
      = none := by
  refine ⟨processBatch_eq_filterMap, fun ls p => ?_, fun ls p q hq hne => ?_,
    fun ls p h => ?_, rfl, rfl⟩
  · constructor
    · intro h
      cases hs : processItem ls p with
      | none => rw [hs] at h; exact absurd h (by simp)
      | some u =>
        obtain ⟨q, hq, hne, _⟩ := (processItem_eq_some ls p u).mp hs
        exact ⟨q, hq, hne⟩
    · rintro ⟨q, hq, hne⟩
      rw [(processItem_eq_some ls p _).mpr ⟨q, hq, hne, rfl⟩]
      rfl
  · exact (processItem_eq_some ls p _).mpr ⟨q, hq, hne, rfl⟩
  · simp [processItem, h]

/-- Witness for C3's hypotheses at a concrete item: a found local quantity of
7 against a remote quantity of 10 emits the update. -/
theorem processBatch_emits_iff_witness :
    processItem (fun s => if s = "A1" then some 7 else none)
        ⟨3, "Gadget", "A1", 10, true, "instock", "simple"⟩
      = some ⟨3, "A1", 7, 10, "Gadget"⟩ :=
  processBatch_emits_iff.2.2.1 _ _ 7 rfl (by decide)

/-- C4: the pagination loop equals its specification — pages are requested up
to and including the first failed, empty, or short (`< perPage`) one, a next
page being requested after every full page; a failed page request fails the
whole fetch with no partial result; otherwise the output is the concatenation
in page order of the consumed pages with invalid-SKU items filtered out,
finally projected by `toCatalogProduct`. -/
theorem getAllProducts_pagination :
    ∀ (perPage : Nat) (rs : List (Except String (List RawProduct))),
      getAllProductsGo perPage rs
        = (catalogFetchSpec perPage rs, consumedCount perPage rs)
      ∧ getAllProducts perPage rs
        = ((catalogFetchSpec perPage rs).map (List.map toCatalogProduct),
           consumedCount perPage rs) := by
  intro pp rs
  refine ⟨getAllProductsGo_eq_spec pp rs, ?_⟩
  unfold getAllProducts
  rw [getAllProductsGo_eq_spec pp rs]
  cases h : catalogFetchSpec pp rs <;> simp [Except.map]

/-- C10: the remote write body of `updateProductStock` sets the stock
quantity, forces `manage_stock` to `true`, and sets `stock_status` to
`"instock"` exactly when the new quantity is positive and `"outofstock"`
otherwise; the body contains no other product field, so applying the write
leaves every other field of the product unchanged. -/
theorem updateProductStock_payload :
    ∀ (p : CatalogProduct) (q : Nat),
      (updateBodyFor q).stock_quantity = q
      ∧ (updateBodyFor q).manage_stock = true
      ∧ (updateBodyFor q).stock_status
          = (if 0 < q then "instock" else "outofstock")
      ∧ (applyBody p (updateBodyFor q)).stock_quantity = (q : Int)
      ∧ (applyBody p (updateBodyFor q)).manage_stock = true
      ∧ (applyBody p (updateBodyFor q)).stock_status
          = (if 0 < q then "instock" else "outofstock")
      ∧ (applyBody p (updateBodyFor q)).id = p.id
      ∧ (applyBody p (updateBodyFor q)).name = p.name
      ∧ (applyBody p (updateBodyFor q)).sku = p.sku
      ∧ (applyBody p (updateBodyFor q)).type = p.type := by
  intro p q
  exact ⟨rfl, rfl, rfl, rfl, rfl, rfl, rfl, rfl, rfl, rfl⟩

/-- C8: a cycle request arriving while a cycle is already running is rejected
immediately with zero effect — the returned state (running flag, statistics)
is exactly the input state and the outcome is the skip. -/
theorem performSync_reentrancy_guard :
    ∀ (bs : Nat) (env : SyncEnv) (s : SyncState), s.isRunning = true →
      performSync bs env s = Except.ok (s, SyncOutcome.skipped) := by
  intro bs env s h
  simp [performSync, h]

/-- Witness for C8 at a concrete running state. -/
theorem performSync_reentrancy_guard_witness :
    performSync 50
        { catalog := Except.ok []
          localStock := fun _ => none
          writeOk := fun _ _ => true }
        { isRunning := true, stats := ⟨1, 2, 3, 4⟩ }
      = Except.ok
          ({ isRunning := true, stats := ⟨1, 2, 3, 4⟩ }, SyncOutcome.skipped) :=
  performSync_reentrancy_guard 50 _ _ rfl

/-- C1 counterexample: with the catalog fetch failing, `performSync` does not
propagate the failure — it returns normally (`Except.ok`), with the error
logged into `totalErrors` and a failed outcome, refuting the claim that a
catalog-fetch failure throws past the boundary to the caller. -/
theorem performSync_fetch_failure_cex :
    performSync 50
        { catalog := Except.error "connect ECONNREFUSED"
          localStock := fun _ => none
          writeOk := fun _ _ => true }
        { isRunning := false, stats := ⟨0, 0, 0, 0⟩ }
      = Except.ok
          ({ isRunning := false, stats := ⟨0, 0, 0, 1⟩ },
           SyncOutcome.failed "connect ECONNREFUSED") := rfl

/-- C1 amended: `performSync` never throws past its own boundary at all —
every invocation returns normally; in particular a catalog-fetch failure is
absorbed by the function's own catch-all: it increments the error counter,
clears the running flag, and reports a failed outcome to the caller instead
of propagating. -/
theorem performSync_never_throws :
    ∀ (bs : Nat) (env : SyncEnv) (s : SyncState),
      (∃ out, performSync bs env s = Except.ok out)
      ∧ (∀ e, env.catalog = Except.error e → s.isRunning = false →
          performSync bs env s =
            Except.ok
              ({ isRunning := false
                 stats := { s.stats with
                            totalErrors := s.stats.totalErrors + 1 } },
               SyncOutcome.failed e)) := by
  intro bs env s
  constructor
  · cases hres : performSync bs env s with
    | ok out => exact ⟨out, rfl⟩
    | error e =>
      exfalso
      unfold performSync at hres
      by_cases h : s.isRunning
      · rw [if_pos h] at hres
        exact Except.noConfusion hres
      · rw [if_neg h] at hres
        cases hc : env.catalog with
        | error e2 =>
          rw [hc] at hres
          simp at hres
        | ok products =>
          rw [hc] at hres
          by_cases h0 : products.length = 0
          · simp [h0] at hres
          · simp [h0] at hres
  · intro e he hrun
    simp [performSync, hrun, he]

/-- Witness for C1's amended theorem at a concrete failing fetch. -/
theorem performSync_never_throws_witness :
    performSync 50
        { catalog := Except.error "boom"
          localStock := fun _ => none
          writeOk := fun _ _ => true }
        { isRunning := false, stats := ⟨2, 5, 1, 0⟩ }
      = Except.ok
          ({ isRunning := false, stats := ⟨2, 5, 1, 1⟩ },
           SyncOutcome.failed "boom") :=
  (performSync_never_throws 50 _ _).2 "boom" rfl rfl

/-- C7 counterexample: a cycle that starts and whose catalog fetch returns
zero items hits the early return — the total-cycles counter is left at 3
instead of being incremented to 4, refuting the claim that every started
cycle updates the statistics. -/
theorem performSync_empty_catalog_cex :
    performSync 50
        { catalog := Except.ok []
          localStock := fun _ => none
          writeOk := fun _ _ => true }
        { isRunning := false, stats := ⟨3, 10, 2, 1⟩ }
      = Except.ok
          ({ isRunning := false, stats := ⟨3, 10, 2, 1⟩ }, SyncOutcome.empty)
    ∧ (3 : Nat) ≠ 3 + 1 :=
  ⟨rfl, by decide⟩

/-- C7 amended: a started cycle increments the total-cycles counter by one
and adds the fetched item count to the items-checked counter only when the
catalog fetch succeeds with a non-empty catalog; a cycle whose fetch returns
zero items ends immediately with zero updates and no error but leaves every
statistic — including the total-cycles counter — unchanged. -/
theorem performSync_stats_update :
    ∀ (bs : Nat) (env : SyncEnv) (s : SyncState)
      (products : List CatalogProduct),
      s.isRunning = false → env.catalog = Except.ok products →
      (products ≠ [] →
        performSync bs env s =
          Except.ok
            ({ isRunning := false
               stats :=
                 ⟨s.stats.totalSyncs + 1,
                  s.stats.totalProducts + products.length,
                  s.stats.totalUpdates
                    + (batchUpdateStock env.writeOk
                        (processAll bs env.localStock products)).1,
                  s.stats.totalErrors
                    + (batchUpdateStock env.writeOk
                        (processAll bs env.localStock products)).2⟩ },
             SyncOutcome.completed products.length
               (processAll bs env.localStock products).length
               (batchUpdateStock env.writeOk
                 (processAll bs env.localStock products)).1
               (batchUpdateStock env.writeOk
                 (processAll bs env.localStock products)).2))
      ∧ (products = [] →
          performSync bs env s =
            Except.ok ({ s with isRunning := false }, SyncOutcome.empty)) := by
  intro bs env s products hrun hc
  constructor
  · intro hne
    have h0 : products.length ≠ 0 := fun hh =>
      hne (List.length_eq_zero.mp hh)
    simp [performSync, hrun, hc, h0]
  · intro h0
    subst h0
    simp [performSync, hrun, hc]

/-- Witness for C7's amended theorem: a one-item catalog out of sync with the
local quantity, the write succeeding. -/
theorem performSync_stats_update_witness :
    performSync 50
        { catalog := Except.ok [⟨1, "Gadget", "A1", 10, true, "instock", "simple"⟩]
          localStock := fun s => if s = "A1" then some 7 else none
          writeOk := fun _ _ => true }
        { isRunning := false, stats := ⟨3, 10, 2, 1⟩ }
      = Except.ok
          ({ isRunning := false, stats := ⟨4, 11, 3, 1⟩ },
           SyncOutcome.completed 1 1 1 0) :=
  (performSync_stats_update 50 _ _
      [⟨1, "Gadget", "A1", 10, true, "instock", "simple"⟩] rfl rfl).1
    (List.cons_ne_nil _ _)

/-- C9: after a cycle whose every emitted update is applied successfully to
the remote catalog, a second cycle over the updated catalog with the same
local stock emits zero updates, applies zero writes, and records zero write
failures (it still counts the cycle and the items checked). -/
theorem second_cycle_zero_updates :
    ∀ (bs : Nat) (products : List CatalogProduct)
      (ls : String → Option Nat) (w : Nat → Nat → Bool) (st : SyncStats),
      (products.map fun p => p.id).Nodup → products ≠ [] →
      performSync bs
          { catalog :=
              Except.ok (applyAllUpdates products (processAll bs ls products))
            localStock := ls
            writeOk := w }
          { isRunning := false, stats := st }
        = Except.ok
            ({ isRunning := false
               stats := ⟨st.totalSyncs + 1, st.totalProducts + products.length,
                         st.totalUpdates, st.totalErrors⟩ },
             SyncOutcome.completed products.length 0 0 0) := by
  intro bs products ls w st hnodup hne
  have hlen : (applyAllUpdates products (processAll bs ls products)).length
      = products.length := by
    rw [applyAllUpdates_eq_map, List.length_map]
  have hupd : processAll bs ls
      (applyAllUpdates products (processAll bs ls products)) = [] := by
    rw [processAll_eq_processBatch, processAll_eq_processBatch]
    exact second_pass_empty ls products hnodup
  have h0 : (applyAllUpdates products (processAll bs ls products)).length ≠ 0 := by
    rw [hlen]
    exact fun hh => hne (List.length_eq_zero.mp hh)
  simp [performSync, h0, hupd, hlen, hne, batchUpdateStock]

/-- Witness for C9: one product, remote 10 vs local 7; the first cycle's
update is applied and the second cycle finds everything in sync. -/
theorem second_cycle_zero_updates_witness :
    performSync 50
        { catalog :=
            Except.ok (applyAllUpdates
              [⟨1, "Gadget", "A1", 10, true, "instock", "simple"⟩]
              (processAll 50 (fun s => if s = "A1" then some 7 else none)
                [⟨1, "Gadget", "A1", 10, true, "instock", "simple"⟩]))
          localStock := fun s => if s = "A1" then some 7 else none
          writeOk := fun _ _ => true }
        { isRunning := false, stats := ⟨0, 0, 0, 0⟩ }
      = Except.ok
          ({ isRunning := false, stats := ⟨1, 1, 0, 0⟩ },
           SyncOutcome.completed 1 0 0 0) :=
  second_cycle_zero_updates 50
    [⟨1, "Gadget", "A1", 10, true, "instock", "simple"⟩]
    (fun s => if s = "A1" then some 7 else none) (fun _ _ => true) ⟨0, 0, 0, 0⟩
    (by decide) (List.cons_ne_nil _ _)
